import Mathlib

/-!
Verification of the uno2iec host transport and MCU line driver.

This development shallowly embeds the host-side serial transport of
`commandline/iec_host_lib.cc` (the response reader loop `ProcessResponses`,
the channel API `OpenChannel` / `WriteToChannel`, and the `Initialize`
handshake) and the MCU pin driver of `uno2iec/iec_driver.h` (`writePIN`,
`readPIN`, `readRESET`), and proves the transport-level properties stated
for them.

Strings on the wire are modelled as `List Char` (the payload text of a
frame) or `List Nat` (raw request bytes).  Machine characters cast from
sizes are modelled with explicit `% 256`.
-/

/-- Modelled from the spec: the error kinds of `IECStatus` (§7 of the spec);
the struct itself lives in the shared `utils.h`, which is not part of the
embedded sources. -/
inductive StatusKind where
  | OK
  | CONNECTION_FAILURE
  | IEC_CONNECTION_FAILURE
  | INVALID_ARGUMENT
  | END_OF_FILE
deriving DecidableEq, Repr

/-- Modelled from the spec: an `IECStatus` is an error kind plus a human
message; a default-constructed status is `OK` with an empty message. -/
structure IECStatus where
  status_kind : StatusKind := .OK
  message : List Char := []
deriving DecidableEq, Repr

/-- Modelled from the spec: `IECStatus::ok()` holds iff the kind is `OK`. -/
def IECStatus.ok (s : IECStatus) : Bool :=
  s.status_kind = .OK

/-- Modelled from the spec: `SetError(kind, msg, status)` overwrites the
status with the given kind and message. -/
def SetError (kind : StatusKind) (msg : List Char) : IECStatus :=
  ⟨kind, msg⟩

/-- The default-constructed, successful `IECStatus`. -/
def okStatus : IECStatus := {}

/-! ## MCU line driver (`uno2iec/iec_driver.h`)

Arduino pin semantics: a pin has a direction register (`pinMode`) and an
output latch (`digitalWrite`).  `digitalRead` samples the electrical level
of the pin: for an input pin that is the external bus line (wired-OR of
all drivers, `true` = HIGH as in the source comment `false = LOW, true ==
HIGH`); for an output pin it is the driven latch. -/

inductive PinDir where
  | input
  | output
deriving DecidableEq, Repr

/-- One GPIO pin: direction register and output latch (`true` = HIGH). -/
structure Pin where
  dir : PinDir
  latch : Bool
deriving DecidableEq, Repr

def pinModeSet (p : Pin) (d : PinDir) : Pin := { p with dir := d }

def digitalWriteLatch (p : Pin) (level : Bool) : Pin := { p with latch := level }

/-- Electrical sample of the pin: an input pin sees the bus line, an output
pin sees what it drives. -/
def digitalRead (p : Pin) (lineLevel : Bool) : Bool :=
  match p.dir with
  | .input => lineLevel
  | .output => p.latch

/-- `IEC::writePIN` (iec_driver.h:150): `pinMode(pin, state ? OUTPUT : INPUT);
digitalWrite(pin, state ? LOW : HIGH)` with `true == PULL`. -/
def writePIN (p : Pin) (state : Bool) : Pin :=
  digitalWriteLatch (pinModeSet p (if state then .output else .input))
    (if state then false else true)

/-- `IEC::readPIN` (iec_driver.h:130): switch the pin to input, then sample.
Returns the updated pin and the sampled level (`true` = HIGH). -/
def readPIN (p : Pin) (lineLevel : Bool) : Pin × Bool :=
  let p1 := pinModeSet p .input
  (p1, digitalRead p1 lineLevel)

/-- `IEC::readRESET` (iec_driver.h:142): `!readPIN(m_resetPin)` — senses the
RESET line, true iff it reads LOW (pulled). -/
def readRESET (p : Pin) (lineLevel : Bool) : Pin × Bool :=
  let r := readPIN p lineLevel
  (r.1, !r.2)

/-! ## Host framing layer: the background reader (`IECBusConnection::ProcessResponses`)

The reader consumes one discriminator byte, then (for the known
discriminators) the `\r`-terminated payload that follows it.  We model a
well-formed incoming byte stream as a list of `Frame`s: the discriminator
together with its payload text (terminator stripped).  `unknown c` is any
discriminator the switch does not handle — including the level letters
`W`, `E`, `I`, for which the source has no case.

The reader's observable actions are `log_callback_` invocations and
`response_promise_.set_value` calls; we record them as `Event`s.  The
unescape routine lives in the shared `utils.h` (not among the embedded
sources), so the model is parametric in `unesc`; `none` models an
`UnescapeString` failure. -/

inductive Frame where
  | bang (payload : List Char)
  | dbg (payload : List Char)
  | resp (payload : List Char)
  | stat (payload : List Char)
  | unknown (c : Char)
deriving DecidableEq, Repr

inductive Event where
  | log (level : Char) (channel : List Char) (message : List Char)
  | resolve (payload : List Char) (st : IECStatus)
deriving DecidableEq, Repr

/-- Reader-local state: the remembered `last_response` and the
`debug_channel_map_` (head insertion = `std::map` overwrite for lookup). -/
structure ReaderState where
  last_response : List Char := []
  debug_channel_map : List (Char × List Char) := []
deriving DecidableEq, Repr

/-- `GetPrintableString` (iec_host_lib.cc:59): escape `\r`, `\n` and other
control characters for logging. -/
def GetPrintableString (s : List Char) : List Char :=
  (s.map fun c =>
    if c = '\r' then ['\\', 'r']
    else if c = '\n' then ['\\', 'n']
    else if c.toNat < 32 then '#' :: Nat.toDigits 10 c.toNat
    else [c]).flatten

/-- The status an `s` frame resolves with (iec_host_lib.cc:351-355): a
default-constructed `IECStatus` if the payload is empty, otherwise
`IEC_CONNECTION_FAILURE` carrying the payload verbatim. -/
def statusOfStat (payload : List Char) : IECStatus :=
  if payload = [] then okStatus
  else SetError .IEC_CONNECTION_FAILURE payload

/-- One iteration of the `while` loop of `ProcessResponses`
(iec_host_lib.cc:293-368) on an already-read frame.  Returns the events
emitted, the successor state, and whether the loop `return`s (reader
terminates). -/
def ProcessResponseStep (unesc : List Char → Option (List Char))
    (st : ReaderState) (f : Frame) : List Event × ReaderState × Bool :=
  match f with
  | .bang p =>
      -- case '!': install a debug channel; a payload shorter than 2 is a
      -- malformed channel configuration and the reader returns.
      if p.length < 2 then
        ([.log 'E' "CLIENT".toList
            ("Malformed channel configuration string ".toList ++ p)], st, true)
      else
        ([], { st with
                debug_channel_map :=
                  (p.headD ' ', p.drop 1) :: st.debug_channel_map }, false)
  | .dbg p =>
      -- case 'D': payload[0] is the level, payload[1] the channel id,
      -- the rest the message.  A short payload or an id missing from the
      -- map logs a malformed-message error and the reader returns.
      match p with
      | lv :: ch :: rest =>
          if rest.length < 1 ∨ (st.debug_channel_map.lookup ch).isNone then
            ([.log 'E' "CLIENT".toList
                ("Malformed debug message ".toList ++ GetPrintableString p)],
             st, true)
          else
            ([.log lv ((st.debug_channel_map.lookup ch).getD []) rest], st, false)
      | _ =>
          ([.log 'E' "CLIENT".toList
              ("Malformed debug message ".toList ++ GetPrintableString p)],
           st, true)
  | .resp p =>
      -- case 'r': unescape and remember as last_response; an unescape
      -- failure logs and the reader returns.
      match unesc p with
      | none => ([.log 'E' "CLIENT".toList "UnescapeString failed".toList], st, true)
      | some u => ([], { st with last_response := u }, false)
  | .stat p =>
      -- case 's': resolve the pending promise with (last_response, status)
      -- and forget last_response.
      ([.resolve st.last_response (statusOfStat p)],
       { st with last_response := [] }, false)
  | .unknown c =>
      -- default: unknown message type; log and return.
      ([.log 'E' "CLIENT".toList
          ("Unknown response msg type ".toList ++ [c])], st, true)

/-- The outcome of running the reader loop over a list of frames. -/
structure RunOut where
  events : List Event
  final : ReaderState
  halted : Bool
deriving DecidableEq, Repr

/-- The `while (true)` loop of `ProcessResponses` over a frame list:
process frames in order until the list is exhausted or an iteration
`return`s. -/
def ProcessResponses (unesc : List Char → Option (List Char))
    (st : ReaderState) : List Frame → RunOut
  | [] => ⟨[], st, false⟩
  | f :: fs =>
      let r := ProcessResponseStep unesc st f
      if r.2.2 then ⟨r.1, r.2.1, true⟩
      else
        let rest := ProcessResponses unesc r.2.1 fs
        ⟨r.1 ++ rest.events, rest.final, rest.halted⟩

def Frame.isStat : Frame → Bool
  | .stat _ => true
  | _ => false

def Event.isResolve : Event → Bool
  | .resolve _ _ => true
  | _ => false

/-- The payload of the last `r` frame in a window, if any
(`last_response` is overwritten by each `r` frame). -/
def lastRespPayload : List Frame → Option (List Char)
  | [] => none
  | .resp p :: fs => some ((lastRespPayload fs).getD p)
  | .bang _ :: fs => lastRespPayload fs
  | .dbg _ :: fs => lastRespPayload fs
  | .stat _ :: fs => lastRespPayload fs
  | .unknown _ :: fs => lastRespPayload fs

/-! ## Host channel API (`iec_host_lib.cc`)

Request frames are byte lists (`List Nat`).  `BufferedReadWriter`'s
serial writes are I/O outside the embedded sources and are modelled as
succeeding; the statuses the per-request futures resolve with are an
input (`statuses k` for the `k`-th request). -/

/-- Maximum size of one data packet sent to the Arduino
(iec_host_lib.cc:26). -/
def kMaxSendPacketSize : Nat := 256

/-- One `p` request frame (iec_host_lib.cc:171-173): `p`, device, channel,
the chunk size cast to a `char` (mod 256), then the chunk bytes. -/
def putRequest (dev chan : Nat) (chunk : List Nat) : List Nat :=
  'p'.toNat :: dev :: chan :: (chunk.length % 256) :: chunk

/-- The chunk payloads `WriteToChannel` cuts its data into: successive
slices of at most `kMaxSendPacketSize` bytes. -/
def chunksOfData : List Nat → List (List Nat)
  | [] => []
  | x :: rest =>
      ((x :: rest).take kMaxSendPacketSize) ::
        chunksOfData ((x :: rest).drop kMaxSendPacketSize)
termination_by l => l.length
decreasing_by
  simp [kMaxSendPacketSize]
  omega

/-- What a `WriteToChannel` call did: overall result, the issued `p`
request frames in order, and how many promises (`RequestResult` calls)
were installed. -/
structure WriteChanOut where
  res : Bool
  requests : List (List Nat)
  promisesInstalled : Nat
deriving DecidableEq, Repr

/-- The chunk loop of `WriteToChannel` (iec_host_lib.cc:167-183): while
data remains, install a promise, write a `p` frame of at most 256 bytes,
and wait for its resolved status (`f.get()`); a non-OK status aborts with
`false` before any further chunk is written. -/
def putLoop (dev chan : Nat) (statuses : Nat → IECStatus) :
    List Nat → Nat → WriteChanOut
  | [], _ => ⟨true, [], 0⟩
  | x :: rest, k =>
      let to_write := min (x :: rest).length kMaxSendPacketSize
      let req := putRequest dev chan ((x :: rest).take to_write)
      if (statuses k).ok then
        let r := putLoop dev chan statuses ((x :: rest).drop to_write) (k + 1)
        ⟨r.res, req :: r.requests, r.promisesInstalled + 1⟩
      else ⟨false, [req], 1⟩
termination_by l _ => l.length
decreasing_by
  simp [kMaxSendPacketSize]

/-- `IECBusConnection::WriteToChannel` (iec_host_lib.cc:159-185): an empty
data string returns true immediately (no promise, no write); otherwise the
chunk loop runs from position 0. -/
def WriteToChannel (dev chan : Nat) (data : List Nat)
    (statuses : Nat → IECStatus) : WriteChanOut :=
  if data = [] then ⟨true, [], 0⟩
  else putLoop dev chan statuses data 0

/-- The `o` request frame (iec_host_lib.cc:127-129): `o`, device, channel,
the command length cast to a `char` (mod 256, no validation), then the
command bytes. -/
def OpenChannelRequest (dev chan : Nat) (cmd : List Nat) : List Nat :=
  'o'.toNat :: dev :: chan :: (cmd.length % 256) :: cmd

/-- `IECBusConnection::OpenChannel` (iec_host_lib.cc:123-140): build and
write the request, wait for the resolved status; true iff OK, otherwise
the resolved status is stored in the out-parameter.  Returns (result,
out-status, request bytes). -/
def OpenChannel (dev chan : Nat) (cmd : List Nat)
    (resp : List Char × IECStatus) : Bool × IECStatus × List Nat :=
  if resp.2.ok then (true, okStatus, OpenChannelRequest dev chan cmd)
  else (false, resp.2, OpenChannelRequest dev chan cmd)

/-! ## Connection handshake (`IECBusConnection::Initialize`, iec_host_lib.cc:203-255)

Reads are modelled as a list of `Except` values: `.ok line` is a
`ReadTerminatedString` success (the `\r`-terminated line, at most
`kMaxLength` bytes, terminator stripped), `.error st` a read failure
carrying the reader's status.  The configuration write at the end is
modelled by the `writeOk` flag. -/

/-- Maximum chars to read looking for a `\r` (iec_host_lib.cc:23). -/
def kMaxLength : Nat := 512 + 1

/-- Number of tries for reading the connection banner (iec_host_lib.cc:34). -/
def kNumRetries : Nat := 5

/-- Minimum supported protocol version (iec_host_lib.cc:31). -/
def kMinProtocolVersion : Int := 3

/-- The banner text (source constant `kConnectionStringPrefix`,
iec_host_lib.cc:28; renamed here). -/
def kConnectionStringStart : List Char := "connect_arduino:".toList

/-- The banner test of iec_host_lib.cc:210-212: the line is at least as
long as the marker and starts with it. -/
def hasConnTag (l : List Char) : Bool :=
  decide (kConnectionStringStart.length ≤ l.length) &&
    l.take kConnectionStringStart.length == kConnectionStringStart

def isSpaceC (c : Char) : Bool :=
  c == ' ' || c == '\t' || c == '\n' || c == '\x0b' || c == '\x0c' || c == '\r'

def isDecDigit (c : Char) : Bool := decide ('0' ≤ c ∧ c ≤ '9')

def isOctDigitC (c : Char) : Bool := decide ('0' ≤ c ∧ c ≤ '7')

def isHexDigitC (c : Char) : Bool :=
  isDecDigit c || decide ('a' ≤ c ∧ c ≤ 'f') || decide ('A' ≤ c ∧ c ≤ 'F')

def digitVal (c : Char) : Nat := c.toNat - '0'.toNat

def hexVal (c : Char) : Nat :=
  if isDecDigit c then digitVal c
  else if decide ('a' ≤ c ∧ c ≤ 'f') then c.toNat - 'a'.toNat + 10
  else c.toNat - 'A'.toNat + 10

/-- Accumulate the longest valid digit run; fail if it is empty. -/
def takeNumVal (base : Nat) (valid : Char → Bool) (val : Char → Nat)
    (cs : List Char) : Option Nat :=
  let ds := cs.takeWhile valid
  if ds = [] then none
  else some (ds.foldl (fun a c => a * base + val c) 0)

/-- Magnitude part of C `sscanf` `%i`: `0x`/`0X` means hexadecimal, a
leading `0` octal, otherwise decimal; at least one digit is required
(a lone `0` parses as octal zero). -/
def parseUnsignedC : List Char → Option Nat
  | '0' :: 'x' :: rest => takeNumVal 16 isHexDigitC hexVal rest
  | '0' :: 'X' :: rest => takeNumVal 16 isHexDigitC hexVal rest
  | '0' :: rest =>
      some ((rest.takeWhile isOctDigitC).foldl (fun a c => a * 8 + digitVal c) 0)
  | cs => takeNumVal 10 isDecDigit digitVal cs

/-- C `sscanf` with `%i` (iec_host_lib.cc:228-229): skip whitespace, parse
an optional sign and a based integer; `none` models a conversion count of
zero or less. -/
def parseCInt (cs : List Char) : Option Int :=
  match cs.dropWhile isSpaceC with
  | '+' :: rest => (parseUnsignedC rest).map (fun n => (n : Int))
  | '-' :: rest => (parseUnsignedC rest).map (fun n => -(n : Int))
  | cs1 => (parseUnsignedC cs1).map (fun n => (n : Int))

/-- The banner retry loop (iec_host_lib.cc:205-226), with the number of
remaining tries counted down from `kNumRetries`: a read failure returns
its status; a line with the banner marker exits the loop with that line;
any other line on the last try yields the unknown-protocol
`CONNECTION_FAILURE`, and earlier ones only log a warning. -/
def bannerRead : List (Except IECStatus (List Char)) → Nat →
    Except IECStatus (List Char)
  | _, 0 => .error (SetError .CONNECTION_FAILURE "no retries".toList)
  | [], _ + 1 => .error (SetError .CONNECTION_FAILURE "read failed".toList)
  | .error st :: _, _ + 1 => .error st
  | .ok line :: rest, n + 1 =>
      if hasConnTag line then .ok line
      else if n = 0 then
        .error (SetError .CONNECTION_FAILURE
          ("Unknown protocol response: ".toList ++ GetPrintableString line))
      else bannerRead rest n

/-- Result of the handshake: the boolean return of `Initialize` and the
out-parameter status. -/
structure InitOut where
  res : Bool
  status : IECStatus
deriving DecidableEq, Repr

/-- `IECBusConnection::Initialize` (iec_host_lib.cc:203-255): run the
banner retry loop, parse the characters after the marker with `%i`,
reject a missing parse or a version below `kMinProtocolVersion` as an
unsupported protocol, then write the configuration line (modelled by
`writeOk`) and start the reader. -/
def InitConn (reads : List (Except IECStatus (List Char))) (writeOk : Bool) :
    InitOut :=
  match bannerRead reads kNumRetries with
  | .error st => ⟨false, st⟩
  | .ok line =>
      match parseCInt (line.drop kConnectionStringStart.length) with
      | none => ⟨false, SetError .CONNECTION_FAILURE
          ("Unsupported protocol: ".toList ++ line)⟩
      | some v =>
          if v < kMinProtocolVersion then
            ⟨false, SetError .CONNECTION_FAILURE
              ("Unsupported protocol: ".toList ++ line)⟩
          else if writeOk then ⟨true, okStatus⟩
          else ⟨false, SetError .CONNECTION_FAILURE "write failed".toList⟩

theorem okStatus_ok : okStatus.ok = true := rfl

/-- C9: writing the pulled state drives the pin as output-low; writing the
released state turns the pin into a (high-impedance) input; a read switches
the pin to input before sampling the line; and the reset sense returns true
iff the RESET line reads LOW (pulled). -/
theorem C9_line_driver_pin_semantics (p : Pin) (lineLevel : Bool) :
    (writePIN p true).dir = .output ∧ (writePIN p true).latch = false ∧
    (writePIN p false).dir = .input ∧
    (readPIN p lineLevel).1.dir = .input ∧
    (readPIN p lineLevel).2 = lineLevel ∧
    ((readRESET p lineLevel).2 = true ↔ lineLevel = false) := by
  refine ⟨rfl, rfl, rfl, rfl, rfl, ?_⟩
  cases lineLevel <;> simp [readRESET, readPIN, digitalRead, pinModeSet]

/-! ### Reader loop lemmas -/

theorem ProcessResponses_cons (u : List Char → Option (List Char))
    (st : ReaderState) (f : Frame) (fs : List Frame)
    (hs : (ProcessResponseStep u st f).2.2 = false) :
    ProcessResponses u st (f :: fs) =
      { events := (ProcessResponseStep u st f).1 ++
          (ProcessResponses u (ProcessResponseStep u st f).2.1 fs).events,
        final := (ProcessResponses u (ProcessResponseStep u st f).2.1 fs).final,
        halted := (ProcessResponses u (ProcessResponseStep u st f).2.1 fs).halted } := by
  simp [ProcessResponses, hs]

theorem ProcessResponses_cons_halt (u : List Char → Option (List Char))
    (st : ReaderState) (f : Frame) (fs : List Frame)
    (hs : (ProcessResponseStep u st f).2.2 = true) :
    ProcessResponses u st (f :: fs) =
      { events := (ProcessResponseStep u st f).1,
        final := (ProcessResponseStep u st f).2.1,
        halted := true } := by
  simp [ProcessResponses, hs]

theorem ProcessResponses_append (u : List Char → Option (List Char)) :
    ∀ (xs ys : List Frame) (st : ReaderState),
      (ProcessResponses u st xs).halted = false →
      ProcessResponses u st (xs ++ ys) =
        { events := (ProcessResponses u st xs).events ++
            (ProcessResponses u (ProcessResponses u st xs).final ys).events,
          final := (ProcessResponses u (ProcessResponses u st xs).final ys).final,
          halted := (ProcessResponses u (ProcessResponses u st xs).final ys).halted }
  | [], ys, st, _ => by
      simp [ProcessResponses]
  | f :: xs, ys, st, h => by
      cases hb : (ProcessResponseStep u st f).2.2 with
      | true =>
          rw [ProcessResponses_cons_halt u st f xs hb] at h
          simp at h
      | false =>
          rw [ProcessResponses_cons u st f xs hb] at h
          simp only [List.cons_append]
          rw [ProcessResponses_cons u st f (xs ++ ys) hb,
            ProcessResponses_cons u st f xs hb]
          simp only at h
          rw [ProcessResponses_append u xs ys _ h]
          simp

theorem lastRespPayload_cons_nonresp (f : Frame) (fs : List Frame)
    (hnr : ∀ q, f ≠ Frame.resp q) :
    lastRespPayload (f :: fs) = lastRespPayload fs := by
  cases f with
  | resp q => exact absurd rfl (hnr q)
  | bang q => rfl
  | dbg q => rfl
  | stat q => rfl
  | unknown c => rfl

theorem lastRespPayload_cons_resp (q : List Char) (fs : List Frame) :
    lastRespPayload (Frame.resp q :: fs) =
      some ((lastRespPayload fs).getD q) := rfl

/-- Case analysis on one non-halting, non-`s` loop iteration: it emits no
resolve event, and it either leaves `last_response` unchanged (every frame
but `r`) or sets it to the successful unescape of an `r` payload. -/
theorem ProcessResponseStep_nostat (u : List Char → Option (List Char))
    (st : ReaderState) (f : Frame)
    (hf : f.isStat = false)
    (hb : (ProcessResponseStep u st f).2.2 = false) :
    ((∀ q, f ≠ Frame.resp q) ∧
      (ProcessResponseStep u st f).1.filter Event.isResolve = [] ∧
      (ProcessResponseStep u st f).2.1.last_response = st.last_response) ∨
    (∃ q v, f = Frame.resp q ∧ u q = some v ∧
      (ProcessResponseStep u st f).1.filter Event.isResolve = [] ∧
      (ProcessResponseStep u st f).2.1.last_response = v) := by
  cases f with
  | bang p =>
      by_cases hp : p.length < 2
      · rw [ProcessResponseStep, if_pos hp] at hb
        simp at hb
      · rw [ProcessResponseStep, if_neg hp] at hb ⊢
        left
        exact ⟨by simp, rfl, rfl⟩
  | dbg p =>
      rcases p with _ | ⟨lv, _ | ⟨ch, rest⟩⟩
      · simp [ProcessResponseStep] at hb
      · simp [ProcessResponseStep] at hb
      · by_cases hbad : rest.length < 1 ∨
            ((st.debug_channel_map.lookup ch).isNone : Prop)
        · simp only [ProcessResponseStep] at hb
          rw [if_pos hbad] at hb
          simp at hb
        · left
          simp only [ProcessResponseStep]
          rw [if_neg hbad]
          exact ⟨by simp, rfl, rfl⟩
  | resp p =>
      cases hu : u p with
      | none => simp [ProcessResponseStep, hu] at hb
      | some v =>
          right
          exact ⟨p, v, rfl, hu, by simp [ProcessResponseStep, hu, Event.isResolve]⟩
  | stat p => simp [Frame.isStat] at hf
  | unknown c =>
      simp [ProcessResponseStep] at hb

/-- Processing a window that contains no `s` frame and does not make the
reader return: no resolve event is emitted, the final `last_response` is
the unescape of the last `r` payload (or the initial `last_response` if
there was none), and the unescape of that last payload succeeded. -/
theorem ProcessResponses_window (u : List Char → Option (List Char)) :
    ∀ (fs : List Frame) (st : ReaderState),
      (∀ f ∈ fs, f.isStat = false) →
      (ProcessResponses u st fs).halted = false →
      (ProcessResponses u st fs).events.filter Event.isResolve = [] ∧
      (ProcessResponses u st fs).final.last_response =
        (match lastRespPayload fs with
         | none => st.last_response
         | some p => (u p).getD []) ∧
      (∀ p, lastRespPayload fs = some p → (u p).isSome = true)
  | [], st, _, _ => by
      simp [ProcessResponses, lastRespPayload]
  | f :: fs, st, hns, hh => by
      have hf : f.isStat = false := hns f (List.mem_cons_self f fs)
      have hns' : ∀ g ∈ fs, g.isStat = false :=
        fun g hg => hns g (List.mem_cons_of_mem f hg)
      cases hb : (ProcessResponseStep u st f).2.2 with
      | true =>
          rw [ProcessResponses_cons_halt u st f fs hb] at hh
          simp at hh
      | false =>
      rw [ProcessResponses_cons u st f fs hb] at hh ⊢
      simp only at hh
      have ih := ProcessResponses_window u fs (ProcessResponseStep u st f).2.1 hns' hh
      rcases ProcessResponseStep_nostat u st f hf hb with
        ⟨hnr, h1, h2⟩ | ⟨q, v, hfq, huq, h1, h2⟩
      · refine ⟨by simp [List.filter_append, h1, ih.1], ?_, ?_⟩
        · rw [lastRespPayload_cons_nonresp f fs hnr]
          simp only
          rw [ih.2.1, h2]
        · intro p hp
          rw [lastRespPayload_cons_nonresp f fs hnr] at hp
          exact ih.2.2 p hp
      · subst hfq
        refine ⟨by simp [List.filter_append, h1, ih.1], ?_, ?_⟩
        · rw [lastRespPayload_cons_resp q fs]
          simp only
          rw [ih.2.1]
          cases hl : lastRespPayload fs with
          | some r' => simp [h2]
          | none => simp [h2, huq]
        · intro p hp
          rw [lastRespPayload_cons_resp q fs] at hp
          cases hl : lastRespPayload fs with
          | some r' =>
              rw [hl] at hp
              simp at hp
              subst hp
              exact ih.2.2 r' hl
          | none =>
              rw [hl] at hp
              simp at hp
              subst hp
              simp [huq]

/-- One loop iteration only ever resolves the promise with the default (OK)
status or an `IEC_CONNECTION_FAILURE` built from a non-empty `s` payload. -/
theorem ProcessResponseStep_resolve_kinds (u : List Char → Option (List Char))
    (st : ReaderState) (f : Frame) (pay : List Char) (stc : IECStatus)
    (h : Event.resolve pay stc ∈ (ProcessResponseStep u st f).1) :
    stc.status_kind = .OK ∨ stc.status_kind = .IEC_CONNECTION_FAILURE := by
  cases f with
  | bang p =>
      by_cases hp : p.length < 2
      · rw [ProcessResponseStep, if_pos hp] at h; simp at h
      · rw [ProcessResponseStep, if_neg hp] at h; simp at h
  | dbg p =>
      rcases p with _ | ⟨lv, _ | ⟨ch, rest⟩⟩
      · simp [ProcessResponseStep] at h
      · simp [ProcessResponseStep] at h
      · by_cases hbad : rest.length < 1 ∨
            ((st.debug_channel_map.lookup ch).isNone : Prop)
        · simp only [ProcessResponseStep] at h
          rw [if_pos hbad] at h; simp at h
        · simp only [ProcessResponseStep] at h
          rw [if_neg hbad] at h; simp at h
  | resp p =>
      cases hu : u p with
      | none => simp [ProcessResponseStep, hu] at h
      | some v => simp [ProcessResponseStep, hu] at h
  | stat p =>
      simp [ProcessResponseStep] at h
      rcases h with ⟨-, h2⟩
      subst h2
      by_cases hm : p = [] <;> simp [statusOfStat, hm, okStatus, SetError]
  | unknown c =>
      simp [ProcessResponseStep] at h

/-- Over any frame list, every promise resolution carries the OK status or
an `IEC_CONNECTION_FAILURE`; `ProcessResponses` never resolves the promise
with kind `CONNECTION_FAILURE`. -/
theorem ProcessResponses_resolve_kinds (u : List Char → Option (List Char)) :
    ∀ (fs : List Frame) (st : ReaderState) (pay : List Char) (stc : IECStatus),
      Event.resolve pay stc ∈ (ProcessResponses u st fs).events →
      stc.status_kind = .OK ∨ stc.status_kind = .IEC_CONNECTION_FAILURE
  | [], st, pay, stc, h => by simp [ProcessResponses] at h
  | f :: fs, st, pay, stc, h => by
      cases hb : (ProcessResponseStep u st f).2.2 with
      | true =>
          rw [ProcessResponses_cons_halt u st f fs hb] at h
          exact ProcessResponseStep_resolve_kinds u st f pay stc h
      | false =>
          rw [ProcessResponses_cons u st f fs hb] at h
          simp only [List.mem_append] at h
          rcases h with h | h
          · exact ProcessResponseStep_resolve_kinds u st f pay stc h
          · exact ProcessResponses_resolve_kinds u fs _ pay stc h

/-- C1: starting from a cleared `last_response`, processing the frames of a
request window followed by its `s` terminator resolves the promise exactly
once, with the unescaped payload of the last `r` frame of the window (empty
if the window has no `r` frame); after resolving, `last_response` is
cleared, so a following `s` frame with no intervening `r` frame resolves
with an empty payload. -/
theorem C1_response_correlation (u : List Char → Option (List Char))
    (st : ReaderState) (fs : List Frame) (m m2 : List Char)
    (h0 : st.last_response = [])
    (hns : ∀ f ∈ fs, f.isStat = false)
    (hh : (ProcessResponses u st fs).halted = false) :
    ∃ pay,
      (ProcessResponses u st (fs ++ [Frame.stat m])).events.filter Event.isResolve
        = [Event.resolve pay (statusOfStat m)] ∧
      (match lastRespPayload fs with
       | some p => u p = some pay
       | none => pay = []) ∧
      (ProcessResponses u st (fs ++ [Frame.stat m])).final.last_response = [] ∧
      (ProcessResponses u (ProcessResponses u st (fs ++ [Frame.stat m])).final
          [Frame.stat m2]).events
        = [Event.resolve [] (statusOfStat m2)] := by
  have hw := ProcessResponses_window u fs st hns hh
  have happ := ProcessResponses_append u fs [Frame.stat m] st hh
  have hstat : ∀ (s' : ReaderState) (mm : List Char),
      ProcessResponses u s' [Frame.stat mm]
      = ⟨[Event.resolve s'.last_response (statusOfStat mm)],
         { s' with last_response := [] }, false⟩ := by
    intro s' mm
    simp [ProcessResponses, ProcessResponseStep]
  refine ⟨(ProcessResponses u st fs).final.last_response, ?_, ?_, ?_, ?_⟩
  · rw [happ, hstat]
    simp only [List.filter_append, hw.1, List.nil_append]
    simp [Event.isResolve]
  · cases hl : lastRespPayload fs with
    | none =>
        simp only [hl]
        rw [hw.2.1]
        simp only [hl]
        exact h0
    | some p =>
        have hs := hw.2.2 p hl
        obtain ⟨v, hv⟩ := Option.isSome_iff_exists.mp hs
        simp only [hl]
        rw [hw.2.1]
        simp only [hl]
        rw [hv]
        simp
  · rw [happ]
    simp only
    rw [hstat]
  · rw [happ]
    simp only
    rw [hstat]
    simp only
    rw [hstat]

/-- C1 witness: a window with one `r` frame carrying `hi` resolves once. -/
theorem C1_response_correlation_witness :
    ((ProcessResponses some {} ([Frame.resp ['h', 'i']] ++ [Frame.stat []])).events.filter
        Event.isResolve).length = 1 := by
  obtain ⟨pay, h1, -, -, -⟩ :=
    C1_response_correlation some {} [Frame.resp ['h', 'i']] [] ['e'] rfl
      (by decide) (by decide)
  rw [h1]
  rfl

/-- C3 (code bug): the claim — and the source comment `Print the malformed
message, but don't terminate execution` — say the reader continues after a
log frame whose channel id is not installed, but the code `return`s: a `D`
frame with unmapped channel id, and a frame with discriminator `W` (the
switch has no `W`/`E`/`I` case), both terminate the reader, so the
following `s` frame is never processed and the pending future never
resolves. -/
theorem C3_log_frames_terminate_reader :
    (ProcessResponses some {} [Frame.dbg ['W', 'A', 'h', 'i'], Frame.stat []]).halted
        = true ∧
    (ProcessResponses some {}
        [Frame.dbg ['W', 'A', 'h', 'i'], Frame.stat []]).events.filter Event.isResolve
        = [] ∧
    (ProcessResponses some {} [Frame.unknown 'W', Frame.stat []]).halted = true ∧
    (ProcessResponses some {}
        [Frame.unknown 'W', Frame.stat []]).events.filter Event.isResolve = [] := by
  refine ⟨by decide, by decide, by decide, by decide⟩

/-- C6: an `s` frame resolves the pending request with the remembered
payload; the status is OK iff the frame payload is empty, and otherwise it
is `IEC_CONNECTION_FAILURE` carrying the payload text verbatim. -/
theorem C6_status_frame_resolution (u : List Char → Option (List Char))
    (st : ReaderState) (m : List Char) :
    ProcessResponseStep u st (Frame.stat m) =
      ([Event.resolve st.last_response (statusOfStat m)],
        { st with last_response := [] }, false) ∧
    ((statusOfStat m).ok = true ↔ m = []) ∧
    (m ≠ [] → statusOfStat m =
      { status_kind := .IEC_CONNECTION_FAILURE, message := m }) := by
  refine ⟨rfl, ?_, ?_⟩
  · by_cases hm : m = [] <;> simp [statusOfStat, hm, okStatus, SetError, IECStatus.ok]
  · intro hm
    simp [statusOfStat, hm, SetError]

/-- C6 witness: a non-empty `s` payload becomes an `IEC_CONNECTION_FAILURE`
with that very text. -/
theorem C6_status_frame_resolution_witness :
    statusOfStat ['x'] =
      { status_kind := .IEC_CONNECTION_FAILURE, message := ['x'] } :=
  (C6_status_frame_resolution some {} ['x']).2.2 (by simp)

/-- C8 (code bug): when the reader terminates (here: on an unknown
discriminator `W`) it does so without resolving the outstanding promise at
all — in fact no resolution with kind `CONNECTION_FAILURE` is ever
produced on any input — so a caller blocked on the future is never given
the `CONNECTION_FAILURE` the claim promises. -/
theorem C8_reader_exit_without_failure_resolution :
    ((ProcessResponses some {} [Frame.unknown 'W']).halted = true ∧
     (ProcessResponses some {} [Frame.unknown 'W']).events.filter Event.isResolve
        = []) ∧
    (∀ (u : List Char → Option (List Char)) (st : ReaderState) (fs : List Frame)
        (pay : List Char) (stc : IECStatus),
      Event.resolve pay stc ∈ (ProcessResponses u st fs).events →
      stc.status_kind ≠ .CONNECTION_FAILURE) := by
  refine ⟨⟨by decide, by decide⟩, ?_⟩
  intro u st fs pay stc h
  rcases ProcessResponses_resolve_kinds u fs st pay stc h with h' | h' <;>
    simp [h']

/-- C8 witness: a resolution produced by an `s` frame is never of kind
`CONNECTION_FAILURE`. -/
theorem C8_reader_exit_without_failure_resolution_witness :
    (statusOfStat ['e']).status_kind ≠ StatusKind.CONNECTION_FAILURE :=
  C8_reader_exit_without_failure_resolution.2 some {} [Frame.stat ['e']] []
    (statusOfStat ['e']) (by decide)

theorem take_min_length_left {α : Type} (l : List α) (n : Nat) :
    l.take (min l.length n) = l.take n := by
  rcases le_total l.length n with h | h
  · rw [min_eq_left h, List.take_length, List.take_of_length_le h]
  · rw [min_eq_right h]

theorem drop_min_length_left {α : Type} (l : List α) (n : Nat) :
    l.drop (min l.length n) = l.drop n := by
  rcases le_total l.length n with h | h
  · rw [min_eq_left h, List.drop_length, List.drop_eq_nil_of_le h]
  · rw [min_eq_right h]

theorem chunksOfData_flatten : ∀ l : List Nat, (chunksOfData l).flatten = l
  | [] => by simp [chunksOfData]
  | x :: rest => by
      rw [chunksOfData]
      simp only [List.flatten_cons]
      rw [chunksOfData_flatten ((x :: rest).drop kMaxSendPacketSize)]
      exact List.take_append_drop _ _
termination_by l => l.length
decreasing_by
  simp [kMaxSendPacketSize]
  omega

theorem chunksOfData_length :
    ∀ l : List Nat, (chunksOfData l).length = (l.length + 255) / 256
  | [] => by simp [chunksOfData]
  | x :: rest => by
      rw [chunksOfData]
      simp only [List.length_cons]
      rw [chunksOfData_length ((x :: rest).drop kMaxSendPacketSize)]
      simp only [List.length_drop, kMaxSendPacketSize, List.length_cons]
      rcases le_or_lt (rest.length + 1) 256 with h | h
      · have h1 : rest.length + 1 - 256 = 0 := by omega
        have h2 : (rest.length + 1 + 255) / 256 = 1 := by
          rw [Nat.div_eq_of_lt_le] <;> omega
        rw [h1, h2]
      · have h2 : rest.length + 1 + 255 = (rest.length + 1 - 256 + 255) + 256 := by
          omega
        rw [h2, Nat.add_div_right _ (by norm_num)]
termination_by l => l.length
decreasing_by
  simp [kMaxSendPacketSize]
  omega

theorem chunksOfData_mem_length_le :
    ∀ (l : List Nat) (c : List Nat), c ∈ chunksOfData l →
      c.length ≤ kMaxSendPacketSize
  | [], c, h => by simp [chunksOfData] at h
  | x :: rest, c, h => by
      rw [chunksOfData] at h
      rcases List.mem_cons.mp h with h | h
      · subst h
        exact List.length_take_le _ _
      · exact chunksOfData_mem_length_le ((x :: rest).drop kMaxSendPacketSize) c h
termination_by l c _ => l.length
decreasing_by
  simp [kMaxSendPacketSize]
  omega

theorem putLoop_all_ok (dev chan : Nat) (statuses : Nat → IECStatus)
    (hok : ∀ i, (statuses i).ok = true) :
    ∀ (l : List Nat) (k : Nat),
      putLoop dev chan statuses l k =
        ⟨true, (chunksOfData l).map (putRequest dev chan),
          (chunksOfData l).length⟩
  | [], k => by simp [putLoop, chunksOfData]
  | x :: rest, k => by
      rw [putLoop]
      simp only [hok k, if_true]
      rw [take_min_length_left, drop_min_length_left]
      rw [putLoop_all_ok dev chan statuses hok
        ((x :: rest).drop kMaxSendPacketSize) (k + 1)]
      rw [chunksOfData]
      simp
termination_by l _ => l.length
decreasing_by
  simp [kMaxSendPacketSize]
  omega

theorem putLoop_abort (dev chan : Nat) (statuses : Nat → IECStatus) :
    ∀ (k : Nat) (l : List Nat) (k0 : Nat),
      (∀ i, i < k → (statuses (k0 + i)).ok = true) →
      (statuses (k0 + k)).ok = false →
      k < (chunksOfData l).length →
      (putLoop dev chan statuses l k0).res = false ∧
      (putLoop dev chan statuses l k0).requests.length = k + 1 ∧
      (putLoop dev chan statuses l k0).promisesInstalled = k + 1
  | 0, l, k0, hpre, hbad, hlt => by
      cases l with
      | nil => simp [chunksOfData] at hlt
      | cons x rest =>
          rw [putLoop]
          have h0 : (statuses k0).ok = false := by simpa using hbad
          simp [h0]
  | k + 1, l, k0, hpre, hbad, hlt => by
      cases l with
      | nil => simp [chunksOfData] at hlt
      | cons x rest =>
          rw [putLoop]
          have h0 : (statuses k0).ok = true := by
            have := hpre 0 (by omega)
            simpa using this
          simp only [h0, if_true]
          rw [drop_min_length_left]
          have hlt' : k < (chunksOfData ((x :: rest).drop kMaxSendPacketSize)).length := by
            rw [chunksOfData] at hlt
            simpa using Nat.lt_of_succ_lt_succ hlt
          have hrec := putLoop_abort dev chan statuses k
            ((x :: rest).drop kMaxSendPacketSize) (k0 + 1)
            (fun i hi => by
              have := hpre (i + 1) (by omega)
              have he : k0 + (i + 1) = k0 + 1 + i := by omega
              rw [he] at this
              exact this)
            (by
              have he : k0 + (k + 1) = k0 + 1 + k := by omega
              rw [he] at hbad
              exact hbad)
            hlt'
          exact ⟨hrec.1, by simp [hrec.2.1], by simp [hrec.2.2]⟩

/-- C2: for non-empty data, `WriteToChannel` issues exactly
`ceil(len/256)` `p` requests whose chunk payloads (the bytes after the
4-byte `p dev chan len` header) concatenate, in order of issue, back to
the data; every chunk is at most 256 bytes; and the first chunk whose
resolved status is not OK makes the call return false after exactly that
chunk, issuing no further chunk (the loop consults status `k` before
writing chunk `k+1`). -/
theorem C2_write_to_channel_chunking (dev chan : Nat) (data : List Nat)
    (statuses : Nat → IECStatus) (hne : data ≠ []) :
    ((∀ i, (statuses i).ok = true) →
      (WriteToChannel dev chan data statuses).res = true ∧
      (WriteToChannel dev chan data statuses).requests.length
        = (data.length + 255) / 256 ∧
      ((WriteToChannel dev chan data statuses).requests.map
        (fun r' => r'.drop 4)).flatten = data ∧
      (∀ r' ∈ (WriteToChannel dev chan data statuses).requests,
        (r'.drop 4).length ≤ kMaxSendPacketSize ∧
        r' = putRequest dev chan (r'.drop 4))) ∧
    (∀ k, (∀ i, i < k → (statuses i).ok = true) → (statuses k).ok = false →
      k < (data.length + 255) / 256 →
      (WriteToChannel dev chan data statuses).res = false ∧
      (WriteToChannel dev chan data statuses).requests.length = k + 1) := by
  have hw : WriteToChannel dev chan data statuses = putLoop dev chan statuses data 0 := by
    rw [WriteToChannel, if_neg hne]
  constructor
  · intro hok
    rw [hw, putLoop_all_ok dev chan statuses hok data 0]
    refine ⟨rfl, by simp [chunksOfData_length], ?_, ?_⟩
    · simp only [List.map_map]
      have : ((fun r' : List Nat => r'.drop 4) ∘ putRequest dev chan) = id := by
        funext c
        rfl
      rw [this, List.map_id]
      exact chunksOfData_flatten data
    · intro r' hr
      simp only [List.mem_map] at hr
      obtain ⟨c, hc, hcr⟩ := hr
      subst hcr
      exact ⟨chunksOfData_mem_length_le data c hc, rfl⟩
  · intro k hpre hbad hlt
    rw [hw]
    have hlt' : k < (chunksOfData data).length := by
      rw [chunksOfData_length]
      exact hlt
    have := putLoop_abort dev chan statuses k data 0
      (fun i hi => by simpa using hpre i hi) (by simpa using hbad) hlt'
    exact ⟨this.1, this.2.1⟩

/-- C2 witness: data of three bytes goes out as a single `p` request. -/
theorem C2_write_to_channel_chunking_witness :
    (WriteToChannel 9 2 [1, 2, 3] (fun _ => okStatus)).requests.length
      = (3 + 255) / 256 :=
  ((C2_write_to_channel_chunking 9 2 [1, 2, 3] (fun _ => okStatus)
      (by decide)).1 (fun _ => rfl)).2.1

/-- C10: `WriteToChannel` on an empty data string returns true immediately,
issues no request and installs no promise, leaving the connection state
untouched. -/
theorem C10_write_empty_is_noop (dev chan : Nat) (statuses : Nat → IECStatus) :
    WriteToChannel dev chan [] statuses = ⟨true, [], 0⟩ := rfl

/-- C7 counterexample: a 300-byte command is not rejected — `OpenChannel`
succeeds (no `INVALID_ARGUMENT`) and the emitted frame carries the
truncated length byte `300 % 256 = 44`. -/
theorem C7_counterexample_oversized_cmd :
    (OpenChannel 9 15 (List.replicate 300 65) ([], okStatus)).1 = true ∧
    (OpenChannel 9 15 (List.replicate 300 65) ([], okStatus)).2.1.status_kind
      ≠ StatusKind.INVALID_ARGUMENT ∧
    OpenChannelRequest 9 15 (List.replicate 300 65) =
      'o'.toNat :: 9 :: 15 :: 44 :: List.replicate 300 65 := by
  refine ⟨rfl, by decide, ?_⟩
  rw [OpenChannelRequest]
  norm_num

/-- C7 (amended): `OpenChannel(dev, chan, cmd)` writes the frame
`o dev chan (len(cmd) mod 256) cmd` with no length validation: for
commands of at most 255 bytes the length byte is exact, for longer ones it
is silently truncated, and the call never produces an `INVALID_ARGUMENT`
of its own (its out-status is success or the resolved status verbatim). -/
theorem C7_open_channel_truncates_length (dev chan : Nat) (cmd : List Nat)
    (resp : List Char × IECStatus) :
    OpenChannelRequest dev chan cmd =
      'o'.toNat :: dev :: chan :: (cmd.length % 256) :: cmd ∧
    (cmd.length ≤ 255 → OpenChannelRequest dev chan cmd =
      'o'.toNat :: dev :: chan :: cmd.length :: cmd) ∧
    (OpenChannel dev chan cmd resp).2.2 = OpenChannelRequest dev chan cmd ∧
    (OpenChannel dev chan cmd resp).1 = resp.2.ok ∧
    ((OpenChannel dev chan cmd resp).2.1 = okStatus ∨
      (OpenChannel dev chan cmd resp).2.1 = resp.2) := by
  refine ⟨rfl, ?_, ?_, ?_, ?_⟩
  · intro h
    rw [OpenChannelRequest, Nat.mod_eq_of_lt (by omega)]
  · by_cases h : resp.2.ok <;> simp [OpenChannel, h]
  · by_cases h : resp.2.ok <;> simp [OpenChannel, h]
  · by_cases h : resp.2.ok <;> simp [OpenChannel, h]

/-- C7 witness: the two-byte command `I0` gets length byte 2. -/
theorem C7_open_channel_truncates_length_witness :
    OpenChannelRequest 9 15 [73, 48] = 'o'.toNat :: 9 :: 15 :: 2 :: [73, 48] :=
  (C7_open_channel_truncates_length 9 15 [73, 48] ([], okStatus)).2.1
    (by norm_num)

theorem bannerRead_finds :
    ∀ (i : Nat) (reads : List (Except IECStatus (List Char))) (n : Nat)
      (line : List Char),
      i < n →
      reads.get? i = some (.ok line) →
      (∀ j, j < i → ∃ lj, reads.get? j = some (.ok lj) ∧ hasConnTag lj = false) →
      hasConnTag line = true →
      bannerRead reads n = .ok line
  | 0, reads, n, line, hin, hget, _, htag => by
      cases reads with
      | nil => simp at hget
      | cons r0 rest =>
          simp at hget
          subst hget
          cases n with
          | zero => omega
          | succ n' => simp [bannerRead, htag]
  | i + 1, reads, n, line, hin, hget, hgarb, htag => by
      cases reads with
      | nil => simp at hget
      | cons r0 rest =>
          obtain ⟨l0, hl0, hl0tag⟩ := hgarb 0 (by omega)
          simp at hl0
          subst hl0
          cases n with
          | zero => omega
          | succ n' =>
              rw [bannerRead, if_neg (by simp [hl0tag]),
                if_neg (by omega : ¬ n' = 0)]
              exact bannerRead_finds i rest n' line (by omega)
                (by simpa using hget)
                (fun j hj => by
                  obtain ⟨lj, hlj, hljt⟩ := hgarb (j + 1) (by omega)
                  exact ⟨lj, by simpa using hlj, hljt⟩) htag

theorem bannerRead_all_garbage :
    ∀ (n : Nat) (reads : List (Except IECStatus (List Char))),
      0 < n →
      (∀ j, j < n → ∃ lj, reads.get? j = some (.ok lj) ∧ hasConnTag lj = false) →
      ∃ msg, bannerRead reads n =
        .error { status_kind := .CONNECTION_FAILURE, message := msg }
  | 0, _, h0, _ => absurd h0 (by omega)
  | n + 1, reads, _, hgarb => by
      cases reads with
      | nil =>
          obtain ⟨l0, hl0, -⟩ := hgarb 0 (by omega)
          simp at hl0
      | cons r0 rest =>
          obtain ⟨l0, hl0, hl0tag⟩ := hgarb 0 (by omega)
          simp at hl0
          subst hl0
          rw [bannerRead, if_neg (by simp [hl0tag])]
          by_cases hn : n = 0
          · subst hn
            rw [if_pos rfl]
            exact ⟨_, rfl⟩
          · rw [if_neg hn]
            exact bannerRead_all_garbage n rest (by omega)
              (fun j hj => by
                obtain ⟨lj, hlj, hljt⟩ := hgarb (j + 1) (by omega)
                exact ⟨lj, by simpa using hlj, hljt⟩)

/-- C4: the handshake reads `\r`-terminated lines of at most 513 bytes
(`kMaxLength`) and retries up to 5 times: if line `i < 5` is the first to
carry the `connect_arduino:` marker and its version is acceptable, the
handshake succeeds; if all five lines lack the marker it fails with
`CONNECTION_FAILURE`. -/
theorem C4_banner_retry (reads : List (Except IECStatus (List Char))) :
    kMaxLength = 513 ∧
    (∀ (i : Nat) (line : List Char) (v : Int),
      i < kNumRetries →
      reads.get? i = some (.ok line) →
      (∀ j, j < i → ∃ lj, reads.get? j = some (.ok lj) ∧ hasConnTag lj = false) →
      hasConnTag line = true →
      parseCInt (line.drop kConnectionStringStart.length) = some v →
      kMinProtocolVersion ≤ v →
      InitConn reads true = ⟨true, okStatus⟩) ∧
    ((∀ j, j < kNumRetries →
        ∃ lj, reads.get? j = some (.ok lj) ∧ hasConnTag lj = false) →
      (InitConn reads true).res = false ∧
      (InitConn reads true).status.status_kind = .CONNECTION_FAILURE) := by
  refine ⟨rfl, ?_, ?_⟩
  · intro i line v hi hget hgarb htag hv hv3
    have hb := bannerRead_finds i reads kNumRetries line hi hget hgarb htag
    simp only [InitConn, hb, hv]
    rw [if_neg (not_lt.mpr hv3)]
    rfl
  · intro hgarb
    obtain ⟨msg, hb⟩ :=
      bannerRead_all_garbage kNumRetries reads (by norm_num [kNumRetries]) hgarb
    simp only [InitConn, hb]
    exact ⟨trivial, trivial⟩

/-- C4 witness: four garbage lines then a valid version-3 banner succeed. -/
theorem C4_banner_retry_witness :
    InitConn [.ok ['x'], .ok ['y'], .ok ['z'], .ok ['w'],
      .ok "connect_arduino:3".toList] true = ⟨true, okStatus⟩ :=
  (C4_banner_retry _).2.1 4 "connect_arduino:3".toList 3 (by decide) rfl
    (fun j hj => by
      interval_cases j
      · exact ⟨['x'], rfl, by decide⟩
      · exact ⟨['y'], rfl, by decide⟩
      · exact ⟨['z'], rfl, by decide⟩
      · exact ⟨['w'], rfl, by decide⟩)
    (by decide) (by decide) (by decide)

/-- C5: the banner suffix after `connect_arduino:` is parsed as a C `%i`
integer; a version below 3 is rejected with `CONNECTION_FAILURE`, version
3 or greater is accepted. -/
theorem C5_protocol_version (line : List Char) (v : Int)
    (htag : hasConnTag line = true)
    (hv : parseCInt (line.drop kConnectionStringStart.length) = some v) :
    (v < kMinProtocolVersion →
      (InitConn [.ok line] true).res = false ∧
      (InitConn [.ok line] true).status.status_kind = .CONNECTION_FAILURE) ∧
    (kMinProtocolVersion ≤ v →
      InitConn [.ok line] true = ⟨true, okStatus⟩) := by
  have hb : bannerRead [.ok line] kNumRetries = .ok line := by
    simp [kNumRetries, bannerRead, htag]
  constructor
  · intro hlt
    simp only [InitConn, hb, hv]
    rw [if_pos hlt]
    exact ⟨rfl, rfl⟩
  · intro hge
    simp only [InitConn, hb, hv]
    rw [if_neg (not_lt.mpr hge)]
    rfl

/-- C5 witness: `connect_arduino:2` is rejected with `CONNECTION_FAILURE`. -/
theorem C5_protocol_version_witness :
    (InitConn [.ok "connect_arduino:2".toList] true).res = false ∧
    (InitConn [.ok "connect_arduino:2".toList] true).status.status_kind
      = StatusKind.CONNECTION_FAILURE :=
  (C5_protocol_version "connect_arduino:2".toList 2 (by decide) (by decide)).1
    (by decide)
